import Mathlib

/-!
Verification development for the katalyst CPU resource advisor
(`pkg/agent/sysadvisor/plugin/qosaware/resource/cpu/advisor.go`).

The Go source is shallowly embedded: the advisor's mutable fields
(`regionMap`, `nonBindingNumas`, the MetaCache contents) become an explicit
`AdvisorState`; the construction-time read-only fields (`metaServer`, the
reclaimed-resource configuration, `systemNumas`) become an `AdvisorEnv`.
Go maps iterated by the advisor become association lists, Go map iteration
becomes list traversal, and `machine.CPUSet` becomes `Finset Nat`.
Fallible Go calls return `Option`/`Except`.  Quantities that Go stores as
`int`/`int64` (which may be negative) are `Int`; non-negative counts are
`Nat` with explicit casts at the points where the Go code mixes them.
`math.Ceil(float64 a / float64 b)` on non-negative integers with `b > 0`
is `ceilDiv a b = (a + b - 1) / b`.

The QoS-region object lives in a package that is not part of the sources
under verification; the advisor only sees it through its interface
(`Name`, `Type`, `GetBindingNumas`, `SetBindingNumas`, `Clear`,
`AddContainer`, `IsEmpty`, `SetEssentials`, `TryUpdateProvision`,
`GetProvision`, `TryUpdateHeadroom`, `GetHeadroom`).  A region is therefore
a record of its observable state; `TryUpdateProvision` stores the control
knobs produced by the spec's canonical provision policy (or an error when
the opaque policy fails, modelled by the `provisionPolicyFails` flag), and
`GetHeadroom` returns the stored `headroomResult`.  `uuid.NewUUID()` used
for fresh region names is modelled by deterministic name derivation from
the owner pool / container identity; the advisor only ever treats the
names as opaque keys.
-/

deriving instance DecidableEq for Except

namespace CPUAdvisor

/-- Pool-name constant `state.PoolNameReserve`. -/
def poolNameReserve : String := "reserve"

/-- Pool-name constant `state.PoolNameShare`. -/
def poolNameShare : String := "share"

/-- Pool-name constant `state.PoolNameReclaim`. -/
def poolNameReclaim : String := "reclaim"

/-- Pool-name constant `state.PoolNameDedicated`. -/
def poolNameDedicated : String := "dedicated"

/-- Region type, `types.QoSRegionType`: only `share` and
`dedicated_numa_exclusive` regions are created by the advisor. -/
inductive RegionType where
  | share
  | dedicatedNumaExclusive
  deriving DecidableEq

/-- Integer ceiling division; models
`math.Ceil(float64 a / float64 b)` for natural `a` and positive `b`. -/
def ceilDiv (a b : Nat) : Nat := (a + b - 1) / b

/-- The two control knobs read by the advisor out of a region's
`types.ControlKnobMap`.  A knob missing from the Go map reads as the zero
value, hence a total record with both fields.  Knob values are `float64`
in Go but the canonical policy produces integers and the advisor converts
them with `int(...)` / `int64(...)`; they are embedded as `Int`. -/
structure ControlKnobMap where
  nonReclaimedCPUSetSize : Int
  reclaimedCPUSupplied : Int
  deriving DecidableEq

/-- `types.ResourceEssentials`. -/
structure ResourceEssentials where
  total : Nat
  reservePoolSize : Nat
  reservedForAllocate : Nat
  enableReclaim : Bool
  deriving DecidableEq

/-- QoS level of a container (`consts.PodAnnotationQoSLevel...`). -/
inductive QoSLevel where
  | sharedCores
  | dedicatedCores
  | reclaimedCores
  | systemCores
  deriving DecidableEq

/-- `types.ContainerInfo` as read and updated by the advisor:
identity, QoS level, owner pool, NUMA-affinity assignment
(NUMA id to CPU-set size), the numa-binding flag, the mutable region-name
set, and the CPU request consumed by the canonical policy. -/
structure ContainerInfo where
  podUID : String
  containerName : String
  qosLevel : QoSLevel
  ownerPoolName : String
  isNumaBindingFlag : Bool
  topologyAwareAssignments : List (Nat × Nat)
  regionNames : List String
  cpuRequest : Int
  deriving DecidableEq

/-- Pool info held by the MetaCache: per-NUMA CPU-set assignment sizes,
the total pool size returned by `GetPoolSize`, and the mutable
region-name set. -/
structure PoolInfo where
  topologyAwareAssignments : List (Nat × Nat)
  poolSize : Nat
  regionNames : List String
  deriving DecidableEq

/-- Observable state of a `region.QoSRegion` as seen through the advisor:
name, owner pool, type, binding NUMA set, bound containers
(pod UID and container name), the essentials last set, the control-knob
map returned by `GetProvision` (none = error), an opaque flag saying
whether this cycle's provision-policy episode fails, and the value
returned by `GetHeadroom` (none = error). -/
structure QoSRegion where
  name : String
  ownerPoolName : String
  rtype : RegionType
  bindingNumas : Finset Nat
  containers : List (String × String)
  essentials : Option ResourceEssentials
  provisionResult : Option ControlKnobMap
  provisionPolicyFails : Bool
  headroomResult : Option Int
  deriving DecidableEq

/-- `region.IsEmpty`: a region is empty when it has no containers. -/
def QoSRegion.isEmptyRegion (r : QoSRegion) : Bool := r.containers.isEmpty

/-- Region entry published to the MetaCache (`types.RegionInfo`). -/
structure RegionInfo where
  regionType : RegionType
  bindingNumas : Finset Nat
  controlKnobMap : ControlKnobMap
  deriving DecidableEq

/-- The MetaCache contents touched by the advisor: pool entries, container
entries, and the region entries last published via
`UpdateRegionEntries`. -/
structure MetaCache where
  pools : List (String × PoolInfo)
  containers : List ContainerInfo
  regionEntries : List (String × RegionInfo)
  deriving DecidableEq

/-- `metacache.GetPoolInfo`. -/
def getPoolInfo (mc : MetaCache) (name : String) : Option PoolInfo :=
  (mc.pools.find? (fun p => p.1 = name)).map (fun p => p.2)

/-- `metacache.GetPoolSize`. -/
def getPoolSize (mc : MetaCache) (name : String) : Option Nat :=
  (getPoolInfo mc name).map (fun p => p.poolSize)

/-- `metaserver` topology facts consumed by the advisor:
`NumCPUs`, `NumNUMANodes`, `CPUsPerNuma()`. -/
structure MetaServer where
  numCPUs : Nat
  numNUMANodes : Nat
  cpusPerNuma : Nat
  deriving DecidableEq

/-- The reclaimed-resource configuration fields read each cycle:
`EnableReclaim()` and `ReservedResourceForAllocate()[cpu]`. -/
structure ReclaimedConfig where
  enableReclaim : Bool
  reservedForAllocateCPU : Nat
  deriving DecidableEq

/-- Construction-time read-only fields of `cpuResourceAdvisor`:
the MetaServer topology, the configuration, and `systemNumas`
(`metaServer.CPUDetails.NUMANodes()`). -/
structure AdvisorEnv where
  metaServer : MetaServer
  conf : ReclaimedConfig
  systemNumas : Finset Nat
  deriving DecidableEq

/-- Mutable state of `cpuResourceAdvisor`: the region map, the
non-binding NUMA set, and the MetaCache contents. -/
structure AdvisorState where
  regionMap : List (String × QoSRegion)
  nonBindingNumas : Finset Nat
  metaCache : MetaCache
  deriving DecidableEq

/-- Loop body of `GetHeadroom`: accumulate per-region headroom, abort on
the first region whose `GetHeadroom` errors, and remember whether a share
region was seen. -/
def headroomLoop : List (String × QoSRegion) → Int → Bool → Except String (Int × Bool)
  | [], total, hasShare => .ok (total, hasShare)
  | (_, r) :: rest, total, hasShare =>
    match r.headroomResult with
    | none => .error "region headroom error"
    | some h => headroomLoop rest (total + h) (hasShare || (r.rtype == RegionType.share))

/-- `cpuResourceAdvisor.GetHeadroom` (advisor.go lines 133-169). -/
def GetHeadroom (env : AdvisorEnv) (s : AdvisorState) : Except String Int :=
  match getPoolSize s.metaCache poolNameReserve with
  | none => .error "reserve pool not exist"
  | some reservePoolSize =>
    if s.regionMap.isEmpty then
      .ok ((env.metaServer.numCPUs : Int) - (reservePoolSize : Int))
    else
      match headroomLoop s.regionMap 0 false with
      | .error e => .error e
      | .ok (total, hasShare) =>
        if hasShare then .ok total
        else
          .ok (total +
            (((s.nonBindingNumas.card * env.metaServer.cpusPerNuma : Nat) : Int) -
             ((ceilDiv (reservePoolSize * s.nonBindingNumas.card)
                env.metaServer.numNUMANodes : Nat) : Int)))

/-- Sum of the per-region headroom values (used to state what the loop
computes when every region succeeds). -/
def headroomSum (rm : List (String × QoSRegion)) : Int :=
  (rm.map (fun p => p.2.headroomResult.getD 0)).sum

/-- Whether the region map contains a share region. -/
def hasShareRegion (rm : List (String × QoSRegion)) : Bool :=
  rm.any (fun p => p.2.rtype == RegionType.share)

lemma headroomLoop_ok (rm : List (String × QoSRegion))
    (hall : (rm.all (fun p => p.2.headroomResult.isSome)) = true) :
    ∀ (t : Int) (b : Bool),
      headroomLoop rm t b = .ok (t + headroomSum rm, b || hasShareRegion rm) := by
  induction rm with
  | nil =>
    intro t b
    simp [headroomLoop, headroomSum, hasShareRegion]
  | cons hd tl ih =>
    intro t b
    simp only [List.all_cons, Bool.and_eq_true] at hall
    obtain ⟨hh, htl⟩ := hall
    obtain ⟨v, hv⟩ := Option.isSome_iff_exists.mp hh
    simp only [headroomLoop, hv]
    rw [ih htl]
    simp [headroomSum, hasShareRegion, hv, add_assoc, Bool.or_assoc]

/-- Fresh name for a share region created on demand
(`string(types.QoSRegionTypeShare) + "-" + uuid`); uuid freshness is
modelled by deriving the name from the owner pool. -/
def shareRegionName (ownerPool : String) : String := "share-" ++ ownerPool

/-- Fresh name for a dedicated-numa-exclusive region created on demand;
uuid freshness is modelled by deriving the name from the container
identity and the NUMA id. -/
def dedicatedRegionName (ci : ContainerInfo) (numaID : Nat) : String :=
  "dedicated_numa_exclusive-" ++ ci.podUID ++ "-" ++ ci.containerName ++ "-" ++ toString numaID

/-- `region.NewQoSRegionShare`: fresh share region with no binding NUMAs
and no containers. -/
def newShareRegion (name ownerPool : String) : QoSRegion :=
  ⟨name, ownerPool, RegionType.share, ∅, [], none, none, false, none⟩

/-- `region.NewQoSRegionDedicatedNumaExclusive`: fresh region bound to a
single NUMA id. -/
def newDedicatedRegion (name ownerPool : String) (numaID : Nat) : QoSRegion :=
  ⟨name, ownerPool, RegionType.dedicatedNumaExclusive, {numaID}, [], none, none, false, none⟩

/-- Look up each region name in the region map; any missing name is a
hard error (shared loop body of `getPoolRegions` / `getContainerRegions`). -/
def lookupRegions (rm : List (String × QoSRegion)) : List String → Except String (List QoSRegion)
  | [] => .ok []
  | n :: rest =>
    match rm.lookup n with
    | none => .error ("failed to find region " ++ n)
    | some r =>
      match lookupRegions rm rest with
      | .error e => .error e
      | .ok rs => .ok (r :: rs)

/-- `cpuResourceAdvisor.getPoolRegions`: a missing or nil pool yields no
regions (and no error). -/
def getPoolRegions (s : AdvisorState) (poolName : String) : Except String (List QoSRegion) :=
  match getPoolInfo s.metaCache poolName with
  | none => .ok []
  | some pool => lookupRegions s.regionMap pool.regionNames

/-- `cpuResourceAdvisor.getContainerRegions`. -/
def getContainerRegions (s : AdvisorState) (ci : ContainerInfo) : Except String (List QoSRegion) :=
  lookupRegions s.regionMap ci.regionNames

/-- `cpuResourceAdvisor.assignToRegions` (advisor.go lines 310-347):
shared-cores containers reuse the pool's regions or get one fresh share
region; numa-binding containers reuse their regions or get one fresh
dedicated region per NUMA id of their assignment; all other containers
get no region. -/
def assignToRegions (s : AdvisorState) (ci : ContainerInfo) : Except String (List QoSRegion) :=
  if ci.qosLevel = QoSLevel.sharedCores then
    match getPoolRegions s ci.ownerPoolName with
    | .error e => .error e
    | .ok regions =>
      if regions.isEmpty then
        .ok [newShareRegion (shareRegionName ci.ownerPoolName) ci.ownerPoolName]
      else .ok regions
  else if ci.isNumaBindingFlag then
    match getContainerRegions s ci with
    | .error e => .error e
    | .ok regions =>
      if regions.isEmpty then
        .ok (ci.topologyAwareAssignments.map
          (fun p => newDedicatedRegion (dedicatedRegionName ci p.1) ci.ownerPoolName p.1))
      else .ok regions
  else .ok []

/-- Insert a region into the region map keyed by its name, replacing any
entry of the same name (`cra.regionMap[r.Name()] = r`, reentrant). -/
def insertRegion (rm : List (String × QoSRegion)) (r : QoSRegion) : List (String × QoSRegion) :=
  if rm.any (fun p => p.1 == r.name) then
    rm.map (fun p => if p.1 = r.name then (p.1, r) else p)
  else rm ++ [(r.name, r)]

/-- `cpuResourceAdvisor.setPoolRegions`: overwrite the pool's region-name
set and store the pool back into the MetaCache; a missing pool is an
error. -/
def setPoolRegions (s : AdvisorState) (poolName : String) (names : List String) :
    Except String AdvisorState :=
  match getPoolInfo s.metaCache poolName with
  | none => .error ("failed to find pool " ++ poolName)
  | some pool =>
    let newPools := s.metaCache.pools.map
      (fun p => if p.1 = poolName then (p.1, { pool with regionNames := names }) else p)
    .ok { s with metaCache := { s.metaCache with pools := newPools } }

/-- Accumulator of the `RangeAndUpdateContainer` callback: current advisor
state, the containers already visited (with their updated `regionNames`
written back), and the accumulated error list. -/
structure AssignAcc where
  st : AdvisorState
  done : List ContainerInfo
  errs : List String
  deriving DecidableEq

/-- Body of the `RangeAndUpdateContainer` callback `f`
(advisor.go lines 270-299): assign the container to regions, add it to
each region, reinsert the regions into the map, write back the
container's region names, and (for non-dedicated owner pools) write back
the pool's region names.  Every error is accumulated and the iteration
continues with the next container. -/
def processOne (acc : AssignAcc) (ci : ContainerInfo) : AssignAcc :=
  match assignToRegions acc.st ci with
  | .error e => ⟨acc.st, acc.done ++ [ci], acc.errs ++ [e]⟩
  | .ok [] => ⟨acc.st, acc.done ++ [ci], acc.errs⟩
  | .ok (r0 :: rs) =>
    let regions := r0 :: rs
    let st1 := regions.foldl
      (fun st r =>
        let r1 := { r with containers := r.containers ++ [(ci.podUID, ci.containerName)] }
        { st with regionMap := insertRegion st.regionMap r1 })
      acc.st
    let ci1 := { ci with regionNames := regions.map (fun r => r.name) }
    if ci1.ownerPoolName = poolNameDedicated then ⟨st1, acc.done ++ [ci1], acc.errs⟩
    else
      match setPoolRegions st1 ci1.ownerPoolName (regions.map (fun r => r.name)) with
      | .error e => ⟨st1, acc.done ++ [ci1], acc.errs ++ [e]⟩
      | .ok st2 => ⟨st2, acc.done ++ [ci1], acc.errs⟩

/-- `cpuResourceAdvisor.gc`: delete every empty region from the region
map. -/
def gc (s : AdvisorState) : AdvisorState :=
  { s with regionMap := s.regionMap.filter (fun p => !p.2.isEmptyRegion) }

/-- First loop of `updateNonBindingNumas`: start from the system NUMAs
and subtract each dedicated-numa-exclusive region's binding NUMAs. -/
def recomputedNonBinding (env : AdvisorEnv) (s : AdvisorState) : Finset Nat :=
  s.regionMap.foldl
    (fun acc p =>
      if p.2.rtype = RegionType.dedicatedNumaExclusive then acc \ p.2.bindingNumas else acc)
    env.systemNumas

/-- `cpuResourceAdvisor.updateNonBindingNumas` (advisor.go lines 351-366):
recompute the non-binding NUMA set from scratch as the system NUMAs minus
each dedicated-numa-exclusive region's binding NUMAs, then set every share
region's binding NUMA set to the result. -/
def updateNonBindingNumas (env : AdvisorEnv) (s : AdvisorState) : AdvisorState :=
  let nb := recomputedNonBinding env s
  { s with
    nonBindingNumas := nb,
    regionMap := s.regionMap.map
      (fun p =>
        if p.2.rtype = RegionType.share then (p.1, { p.2 with bindingNumas := nb }) else p) }

/-- `Clear()` on every region followed by the container range: stage 1-3
of `assignContainersToRegions`. -/
def assignFold (s : AdvisorState) : AssignAcc :=
  let cleared : AdvisorState :=
    { s with regionMap := s.regionMap.map (fun p => (p.1, { p.2 with containers := [] })) }
  cleared.metaCache.containers.foldl processOne ⟨cleared, [], []⟩

/-- State after the container range, with the updated containers written
back into the MetaCache. -/
def postFoldState (s : AdvisorState) : AdvisorState :=
  { (assignFold s).st with metaCache :=
      { (assignFold s).st.metaCache with containers := (assignFold s).done } }

/-- `cpuResourceAdvisor.assignContainersToRegions`
(advisor.go lines 261-306): clear all regions, range over the containers
accumulating errors, garbage-collect empty regions, recompute the
non-binding NUMA set, and return the aggregated error list. -/
def assignContainersToRegions (env : AdvisorEnv) (s : AdvisorState) :
    AdvisorState × List String :=
  (updateNonBindingNumas env (gc (postFoldState s)), (assignFold s).errs)

/-- Per-region essentials computed by the update loop
(advisor.go lines 193-222): the region CPU limit, the intersection size
with the reserve pool's per-NUMA assignments, and the ceiling-averaged
reserved-for-allocate share. -/
def regionEssentials (env : AdvisorEnv) (rpi : PoolInfo) (r : QoSRegion) : ResourceEssentials :=
  ⟨r.bindingNumas.card * env.metaServer.cpusPerNuma,
   r.bindingNumas.sum (fun numaID => (rpi.topologyAwareAssignments.lookup numaID).getD 0),
   ceilDiv (env.conf.reservedForAllocateCPU * r.bindingNumas.card) env.metaServer.numNUMANodes,
   env.conf.enableReclaim⟩

/-- Sum of the CPU requests of the containers bound to a region, looked up
in the MetaCache (consumed by the canonical provision policy). -/
def regionRequestSum (s : AdvisorState) (r : QoSRegion) : Int :=
  (r.containers.map (fun key =>
    ((s.metaCache.containers.find?
        (fun ci => ci.podUID == key.1 && ci.containerName == key.2)).map
      (fun ci => ci.cpuRequest)).getD 0)).sum

/-- Modelled from the spec: the canonical provision policy
(`provisionpolicy.NewPolicyCanonical`), whose source file is not among the
sources under verification.  Per the spec: for a share region,
`non_reclaimed_cpuset_size` is the summed container CPU requests clamped
to `[reserve_pool_size, total - reserved_for_allocate]` when reclaim is
enabled, else `total - reserve_pool_size`; for a dedicated-numa-exclusive
region, `reclaimed_cpu_supplied` is
`total - sum_requests - reserved_for_allocate` when reclaim is enabled
(values are non-negative), else 0. -/
def canonicalProvision (rt : RegionType) (ess : ResourceEssentials) (requestSum : Int) :
    ControlKnobMap :=
  match rt with
  | RegionType.share =>
    if ess.enableReclaim then
      ⟨max (ess.reservePoolSize : Int)
        (min requestSum ((ess.total : Int) - (ess.reservedForAllocate : Int))), 0⟩
    else ⟨(ess.total : Int) - (ess.reservePoolSize : Int), 0⟩
  | RegionType.dedicatedNumaExclusive =>
    if ess.enableReclaim then
      ⟨0, max 0 ((ess.total : Int) - requestSum - (ess.reservedForAllocate : Int))⟩
    else ⟨0, 0⟩

/-- One region's `SetEssentials` followed by `TryUpdateProvision`: store
the essentials and the provision result (the canonical policy's knobs, or
an error when the region's opaque policy episode fails). -/
def provisionRegion (env : AdvisorEnv) (s : AdvisorState) (rpi : PoolInfo) (r : QoSRegion) :
    QoSRegion :=
  let ess := regionEssentials env rpi r
  { r with
    essentials := some ess,
    provisionResult :=
      if r.provisionPolicyFails then none
      else some (canonicalProvision r.rtype ess (regionRequestSum s r)) }

/-- The provision-policy episode of the update cycle, run for every region
in the region map. -/
def perRegionProvision (env : AdvisorEnv) (rpi : PoolInfo) (s : AdvisorState) : AdvisorState :=
  { s with regionMap := s.regionMap.map (fun p => (p.1, provisionRegion env s rpi p.2)) }

/-- `cpuResourceAdvisor.assembleRegionEntries` (advisor.go lines 369-390):
build a region entry per region from its provision result; the first
`GetProvision` error aborts with that error and nothing is returned. -/
def assembleRegionEntriesList :
    List (String × QoSRegion) → Except String (List (String × RegionInfo))
  | [] => .ok []
  | (n, r) :: rest =>
    match r.provisionResult with
    | none => .error "get provision failed"
    | some knobs =>
      match assembleRegionEntriesList rest with
      | .error e => .error e
      | .ok es => .ok ((n, ⟨r.rtype, r.bindingNumas, knobs⟩) :: es)

/-- Accumulator of the `assembleProvision` region loop:
the running non-numa-binding requirement, the share pool entry
`PoolEntries[share][-1]` written so far, and the per-NUMA reclaim entries
`PoolEntries[reclaim][n]` written so far. -/
structure ProvisionAcc where
  requirement : Int
  shareEntry : Option Int
  reclaimNuma : List (Nat × Int)
  deriving DecidableEq

/-- Insert-or-replace into a NUMA-keyed association list (Go map
assignment). -/
def assocInsert (l : List (Nat × Int)) (k : Nat) (v : Int) : List (Nat × Int) :=
  if l.any (fun p => p.1 == k) then l.map (fun p => if p.1 = k then (k, v) else p)
  else l ++ [(k, v)]

/-- The single binding NUMA of a dedicated-numa-exclusive region
(`r.GetBindingNumas().ToSliceInt()[0]`; the source indexes the slice
unconditionally after only logging when its length is not 1). -/
def regionNumaKey (r : QoSRegion) : Nat :=
  (Finset.sort (fun a b => a ≤ b) r.bindingNumas).headD 0

/-- Region loop of `assembleProvision` (advisor.go lines 426-453): share
regions write `PoolEntries[share][-1]` and accumulate the requirement;
dedicated regions write `PoolEntries[reclaim][numa]`; a `GetProvision`
error aborts the assembly. -/
def provisionLoop : List (String × QoSRegion) → ProvisionAcc → Except String ProvisionAcc
  | [], acc => .ok acc
  | (_, r) :: rest, acc =>
    match r.provisionResult with
    | none => .error "get provision with error"
    | some knob =>
      if r.rtype = RegionType.share then
        provisionLoop rest
          ⟨acc.requirement + knob.nonReclaimedCPUSetSize,
           some knob.nonReclaimedCPUSetSize, acc.reclaimNuma⟩
      else
        provisionLoop rest
          ⟨acc.requirement, acc.shareEntry,
           assocInsert acc.reclaimNuma (regionNumaKey r) knob.reclaimedCPUSupplied⟩

/-- `InternalCalculationResult`, with the map-of-maps `PoolEntries`
flattened into the entries the source actually writes:
`reservePoolEntry = PoolEntries[reserve][-1]`,
`sharePoolEntry = PoolEntries[share][-1]` (present iff a share region was
processed), `reclaimPoolNumaEntries` the `PoolEntries[reclaim][n]` written
for dedicated regions, and
`reclaimPoolNonBinding = PoolEntries[reclaim][-1]`. -/
structure InternalCalculationResult where
  reservePoolEntry : Int
  sharePoolEntry : Option Int
  reclaimPoolNumaEntries : List (Nat × Int)
  reclaimPoolNonBinding : Int
  deriving DecidableEq

/-- `cpuResourceAdvisor.assembleProvision` (advisor.go lines 412-463). -/
def assembleProvision (env : AdvisorEnv) (s : AdvisorState) :
    Except String InternalCalculationResult :=
  let reservePoolSize := (getPoolSize s.metaCache poolNameReserve).getD 0
  match provisionLoop s.regionMap ⟨0, none, []⟩ with
  | .error e => .error e
  | .ok acc =>
    .ok ⟨(reservePoolSize : Int), acc.shareEntry, acc.reclaimNuma,
      ((s.nonBindingNumas.card * env.metaServer.cpusPerNuma : Nat) : Int) -
        acc.requirement -
        ((ceilDiv (reservePoolSize * s.nonBindingNumas.card)
            env.metaServer.numNUMANodes : Nat) : Int)⟩

/-- Outcome of one call to `cpuResourceAdvisor.update`: the advisor state
afterwards, the region entries published to the MetaCache (none when
publication was skipped), the provision plan sent on the send channel
(none when no send happened), and the names of the regions on which
`TryUpdateHeadroom` was invoked during this cycle. -/
structure UpdateOutcome where
  state : AdvisorState
  published : Option (List (String × RegionInfo))
  sent : Option InternalCalculationResult
  headroomUpdatedRegions : List String
  deriving DecidableEq

/-- `cpuResourceAdvisor.update` (advisor.go lines 173-257).  The Boolean
`inStartupWindow` models `time.Now().Before(cra.startTime.Add(startUpPeriod))`,
i.e. whether the cycle runs within the first 30 seconds after advisor
construction. -/
def update (env : AdvisorEnv) (s : AdvisorState) (inStartupWindow : Bool) : UpdateOutcome :=
  match getPoolInfo s.metaCache poolNameReserve with
  | none => ⟨s, none, none, []⟩
  | some rpi =>
    let ar := assignContainersToRegions env s
    if ar.2 ≠ [] then ⟨ar.1, none, none, []⟩
    else
      let s2 := perRegionProvision env rpi ar.1
      match assembleRegionEntriesList s2.regionMap with
      | .error _ => ⟨s2, none, none, []⟩
      | .ok entries =>
        let s3 := { s2 with metaCache := { s2.metaCache with regionEntries := entries } }
        if inStartupWindow then ⟨s3, some entries, none, []⟩
        else
          match assembleProvision env s3 with
          | .error _ => ⟨s3, some entries, none, []⟩
          | .ok provision =>
            ⟨s3, some entries, some provision, s3.regionMap.map (fun p => p.1)⟩

/-! ### Concrete sample machines and states -/

/-- A 16-CPU machine with 2 NUMA nodes of 8 CPUs each. -/
def msSample : MetaServer := ⟨16, 2, 8⟩

/-- Reclaim enabled, 4 CPUs reserved for allocate. -/
def confSample : ReclaimedConfig := ⟨true, 4⟩

/-- Sample environment over NUMAs 0 and 1. -/
def envSample : AdvisorEnv := ⟨msSample, confSample, {0, 1}⟩

/-- Reserve pool of size 2, one reserve CPU on each NUMA. -/
def reservePoolSample : PoolInfo := ⟨[(0, 1), (1, 1)], 2, []⟩

/-- State with an empty region map and only the reserve pool. -/
def sEmpty : AdvisorState := ⟨[], ∅, ⟨[(poolNameReserve, reservePoolSample)], [], []⟩⟩

/-- State whose MetaCache has no reserve pool. -/
def sNoReserve : AdvisorState := ⟨[], ∅, ⟨[], [], []⟩⟩

/-- One shared-cores container of request 3 in pool `share`. -/
def c1Sample : ContainerInfo :=
  ⟨"pod1", "ctn1", QoSLevel.sharedCores, "share", false, [], [], 3⟩

/-- The `share` pool, initially with no region names. -/
def sharePoolSample : PoolInfo := ⟨[], 0, []⟩

/-- State with one shared-cores container and an initially empty region
map (the spec's scenario S2 input). -/
def sShare : AdvisorState :=
  ⟨[], ∅,
   ⟨[(poolNameReserve, reservePoolSample), ("share", sharePoolSample)], [c1Sample], []⟩⟩

/-- A shared-cores container whose owner pool references a region name
absent from the region map (its assignment errors). -/
def cGhost : ContainerInfo :=
  ⟨"podg", "ctng", QoSLevel.sharedCores, "poolg", false, [], [], 1⟩

/-- A second, well-formed shared-cores container in pool `share2`. -/
def cOk : ContainerInfo :=
  ⟨"pod2", "ctn2", QoSLevel.sharedCores, "share2", false, [], [], 2⟩

/-- State in which the first container's assignment fails (its pool names
the region `ghost`, which does not exist) while the second container is
assignable. -/
def sGhost : AdvisorState :=
  ⟨[], ∅,
   ⟨[(poolNameReserve, reservePoolSample), ("poolg", ⟨[], 0, ["ghost"]⟩),
     ("share2", ⟨[], 0, []⟩)],
    [cGhost, cOk], []⟩⟩

/-- Pre-existing share region `sx` (its provision policy succeeds). -/
def rSx : QoSRegion :=
  ⟨"sx", "share", RegionType.share, ∅, [], none, none, false, some 5⟩

/-- Pre-existing dedicated-numa-exclusive region `dx` on NUMA 0 whose
provision-policy episode fails this cycle. -/
def rDx : QoSRegion :=
  ⟨"dx", "dedicated", RegionType.dedicatedNumaExclusive, {0}, [], none, none, true, some 0⟩

/-- Shared-cores container kept in region `sx` via its pool. -/
def cShare : ContainerInfo :=
  ⟨"p1", "c1", QoSLevel.sharedCores, "share", false, [], [], 3⟩

/-- Dedicated numa-binding container kept in region `dx`. -/
def cDed : ContainerInfo :=
  ⟨"p2", "c2", QoSLevel.dedicatedCores, "dedicated", true, [(0, 8)], ["dx"], 6⟩

/-- State in which assignment succeeds for both containers but exactly one
region's `GetProvision` fails. -/
def sProvFail : AdvisorState :=
  ⟨[("sx", rSx), ("dx", rDx)], ∅,
   ⟨[(poolNameReserve, reservePoolSample), ("share", ⟨[], 0, ["sx"]⟩)],
    [cShare, cDed], []⟩⟩

/-- Share region carrying an already-computed provision result with
`non_reclaimed_cpuset_size = 3`. -/
def rKnobOk : QoSRegion :=
  ⟨"share-share", "share", RegionType.share, {0, 1}, [("pod1", "ctn1")], none,
    some ⟨3, 0⟩, false, none⟩

/-- State whose single share region carries knob value 3 (the provision
assembly yields `PoolEntries[reclaim][-1] = 16 - 3 - 2 = 11`). -/
def sKnobOk : AdvisorState :=
  ⟨[("share-share", rKnobOk)], {0, 1}, ⟨[(poolNameReserve, reservePoolSample)], [], []⟩⟩

/-- The provision result assembled from `sKnobOk`. -/
def resKnobOk : InternalCalculationResult := ⟨2, some 3, [], 11⟩

/-- Share region carrying knob value 100, exceeding the node capacity. -/
def rBadKnob : QoSRegion :=
  ⟨"share-share", "share", RegionType.share, {0, 1}, [("pod1", "ctn1")], none,
    some ⟨100, 0⟩, false, none⟩

/-- State whose single share region carries the oversized (but
non-negative) knob value 100. -/
def sBadKnob : AdvisorState :=
  ⟨[("share-share", rBadKnob)], {0, 1}, ⟨[(poolNameReserve, reservePoolSample)], [], []⟩⟩

/-- Dedicated region on NUMA 0 with a known headroom of 0 (the spec's
scenario S3 outcome). -/
def rDxH : QoSRegion :=
  ⟨"dx", "dedicated", RegionType.dedicatedNumaExclusive, {0}, [("p", "c")], none, none,
    false, some 0⟩

/-- State with one dedicated region, no share region, and non-binding
NUMA set `{1}`. -/
def sDedOnly : AdvisorState :=
  ⟨[("dx", rDxH)], {1}, ⟨[(poolNameReserve, reservePoolSample)], [], []⟩⟩

/-! ### Claims about GetHeadroom -/

/-- C6: whenever the region map is empty and the reserve pool exists in
the MetaCache, `GetHeadroom` returns exactly the total CPU count minus the
reserve pool size, with no error. -/
theorem c6_headroom_empty_region_map (env : AdvisorEnv) (s : AdvisorState) (n : Nat)
    (hres : getPoolSize s.metaCache poolNameReserve = some n)
    (hemp : s.regionMap = []) :
    GetHeadroom env s = .ok ((env.metaServer.numCPUs : Int) - (n : Int)) := by
  simp [GetHeadroom, hres, hemp]

/-- Witness for C6: on the empty 16-CPU sample node with reserve size 2,
`GetHeadroom` returns 14. -/
theorem c6_headroom_empty_region_map_witness : GetHeadroom envSample sEmpty = .ok 14 := by
  have h := c6_headroom_empty_region_map envSample sEmpty 2 (by decide) (by decide)
  rw [h]
  decide

/-- C10: whenever the reserve pool is absent from the MetaCache,
`GetHeadroom` returns the error `reserve pool not exist`, regardless of
the region map. -/
theorem c10_headroom_reserve_missing (env : AdvisorEnv) (s : AdvisorState)
    (h : getPoolSize s.metaCache poolNameReserve = none) :
    GetHeadroom env s = .error "reserve pool not exist" := by
  simp [GetHeadroom, h]

/-- Witness for C10 at the sample state without a reserve pool. -/
theorem c10_headroom_reserve_missing_witness :
    GetHeadroom envSample sNoReserve = .error "reserve pool not exist" :=
  c10_headroom_reserve_missing envSample sNoReserve (by decide)

/-- C9: with a non-empty region map in which every region's headroom
succeeds and the reserve pool present, `GetHeadroom` returns the sum of
the per-region headrooms plus, exactly when no share region exists,
`|non_binding_numas| * cpus_per_numa - ceil(|reserve| * |non_binding_numas| / total_numas)`. -/
theorem c9_headroom_sum (env : AdvisorEnv) (s : AdvisorState) (n : Nat)
    (hres : getPoolSize s.metaCache poolNameReserve = some n)
    (hne : s.regionMap ≠ [])
    (hall : (s.regionMap.all (fun p => p.2.headroomResult.isSome)) = true) :
    (hasShareRegion s.regionMap = false →
      GetHeadroom env s = .ok (headroomSum s.regionMap +
        (((s.nonBindingNumas.card * env.metaServer.cpusPerNuma : Nat) : Int) -
         ((ceilDiv (n * s.nonBindingNumas.card) env.metaServer.numNUMANodes : Nat) : Int))))
    ∧ (hasShareRegion s.regionMap = true →
      GetHeadroom env s = .ok (headroomSum s.regionMap)) := by
  have hie : s.regionMap.isEmpty = false := by
    rcases hrm : s.regionMap with _ | ⟨hd, tl⟩
    · exact absurd hrm hne
    · rfl
  constructor <;> intro hs <;>
    simp [GetHeadroom, hres, hie, headroomLoop_ok s.regionMap hall 0 false, hs]

/-- Witness for C9 at the sample state with one dedicated region
(headroom 0) and non-binding NUMA set {1}: the result is 0 + 8 - 1 = 7. -/
theorem c9_headroom_sum_witness : GetHeadroom envSample sDedOnly = .ok 7 := by
  have h := (c9_headroom_sum envSample sDedOnly 2 (by decide) (by decide) (by decide)).1
    (by decide)
  rw [h]
  decide

/-! ### Characterization of the update-cycle paths -/

lemma update_reserve_missing (env : AdvisorEnv) (s : AdvisorState) (w : Bool)
    (h : getPoolInfo s.metaCache poolNameReserve = none) :
    update env s w = ⟨s, none, none, []⟩ := by
  simp [update, h]

lemma update_assign_err (env : AdvisorEnv) (s : AdvisorState) (w : Bool) (rpi : PoolInfo)
    (h : getPoolInfo s.metaCache poolNameReserve = some rpi)
    (he : (assignContainersToRegions env s).2 ≠ []) :
    update env s w = ⟨(assignContainersToRegions env s).1, none, none, []⟩ := by
  simp only [update, h]
  rw [if_pos he]

lemma update_regionMap_eq (env : AdvisorEnv) (s : AdvisorState) (w : Bool) (rpi : PoolInfo)
    (h : getPoolInfo s.metaCache poolNameReserve = some rpi)
    (he : (assignContainersToRegions env s).2 = []) :
    (update env s w).state.regionMap =
      (perRegionProvision env rpi (assignContainersToRegions env s).1).regionMap := by
  simp only [update, h, he, ne_eq, not_true_eq_false, if_false]
  split
  · rfl
  · split
    · rfl
    · split <;> rfl

lemma update_nonBinding_eq (env : AdvisorEnv) (s : AdvisorState) (w : Bool) (rpi : PoolInfo)
    (h : getPoolInfo s.metaCache poolNameReserve = some rpi)
    (he : (assignContainersToRegions env s).2 = []) :
    (update env s w).state.nonBindingNumas =
      (assignContainersToRegions env s).1.nonBindingNumas := by
  simp only [update, h, he, ne_eq, not_true_eq_false, if_false]
  split
  · rfl
  · split
    · rfl
    · split <;> rfl

lemma assembleRegionEntriesList_ok (rm : List (String × QoSRegion))
    (hall : (rm.all (fun p => p.2.provisionResult.isSome)) = true) :
    ∃ es, assembleRegionEntriesList rm = .ok es := by
  induction rm with
  | nil => exact ⟨[], rfl⟩
  | cons hd tl ih =>
    obtain ⟨n, r⟩ := hd
    simp only [List.all_cons, Bool.and_eq_true] at hall
    obtain ⟨v, hv⟩ := Option.isSome_iff_exists.mp hall.1
    obtain ⟨es, hes⟩ := ih hall.2
    exact ⟨(n, ⟨r.rtype, r.bindingNumas, v⟩) :: es,
      by simp [assembleRegionEntriesList, hv, hes]⟩

lemma assembleRegionEntriesList_error (rm : List (String × QoSRegion))
    (hfail : (rm.any (fun p => p.2.provisionResult.isNone)) = true) :
    ∃ e, assembleRegionEntriesList rm = .error e := by
  induction rm with
  | nil => simp at hfail
  | cons hd tl ih =>
    obtain ⟨n, r⟩ := hd
    rcases hv : r.provisionResult with _ | v
    · exact ⟨"get provision failed", by simp [assembleRegionEntriesList, hv]⟩
    · simp only [List.any_cons, Bool.or_eq_true, hv, Option.isNone_some] at hfail
      rcases hfail with hf | hf
      · cases hf
      · obtain ⟨e, hee⟩ := ih hf
        exact ⟨e, by simp [assembleRegionEntriesList, hv, hee]⟩

lemma perRegion_provisionResult_isSome (env : AdvisorEnv) (rpi : PoolInfo) (st : AdvisorState)
    (hall : (st.regionMap.all (fun p => !p.2.provisionPolicyFails)) = true) :
    ((perRegionProvision env rpi st).regionMap.all
      (fun p => p.2.provisionResult.isSome)) = true := by
  rw [List.all_eq_true] at hall ⊢
  intro p hp
  simp only [perRegionProvision, List.mem_map] at hp
  obtain ⟨q, hq, hpq⟩ := hp
  have hqf := hall q hq
  rw [Bool.not_eq_true'] at hqf
  subst hpq
  simp [provisionRegion, hqf]

lemma perRegion_provisionResult_none (env : AdvisorEnv) (rpi : PoolInfo) (st : AdvisorState)
    (hany : (st.regionMap.any (fun p => p.2.provisionPolicyFails)) = true) :
    ((perRegionProvision env rpi st).regionMap.any
      (fun p => p.2.provisionResult.isNone)) = true := by
  rw [List.any_eq_true] at hany ⊢
  obtain ⟨q, hq, hqf⟩ := hany
  refine ⟨(q.1, provisionRegion env st rpi q.2), ?_, ?_⟩
  · simp only [perRegionProvision, List.mem_map]
    exact ⟨q, hq, rfl⟩
  · simp [provisionRegion, hqf]

/-! ### Claims about the update-cycle control flow -/

/-- C7: when the reserve pool is absent from the MetaCache, the update
cycle is a no-op: the advisor state (region map, non-binding NUMA set,
all MetaCache contents including container and pool region names) is
unchanged, no region entries are published, no plan is sent, and no error
is surfaced. -/
theorem c7_missing_reserve_noop (env : AdvisorEnv) (s : AdvisorState) (w : Bool)
    (h : getPoolInfo s.metaCache poolNameReserve = none) :
    update env s w = ⟨s, none, none, []⟩ :=
  update_reserve_missing env s w h

/-- Witness for C7 at the sample state without a reserve pool. -/
theorem c7_missing_reserve_noop_witness :
    update envSample sNoReserve false = ⟨sNoReserve, none, none, []⟩ :=
  c7_missing_reserve_noop envSample sNoReserve false (by decide)

/-- C2 (amended): per-container assignment errors are accumulated and
aggregated, and the assignment phase still processes the remaining
containers (running to completion including GC and the non-binding-NUMA
recompute), but a non-empty aggregated error aborts the cycle right after
assignment: the state is exactly the post-assignment state, no region
entries are published and no plan is sent. -/
theorem c2_assignment_error_aborts_cycle (env : AdvisorEnv) (s : AdvisorState) (w : Bool)
    (rpi : PoolInfo)
    (h : getPoolInfo s.metaCache poolNameReserve = some rpi)
    (he : (assignContainersToRegions env s).2 ≠ []) :
    update env s w = ⟨(assignContainersToRegions env s).1, none, none, []⟩ :=
  update_assign_err env s w rpi h he

/-- Witness for C2's amended theorem at the sample state whose first
container fails assignment. -/
theorem c2_assignment_error_aborts_cycle_witness :
    update envSample sGhost false =
      ⟨(assignContainersToRegions envSample sGhost).1, none, none, []⟩ :=
  c2_assignment_error_aborts_cycle envSample sGhost false reservePoolSample
    (by decide) (by decide)

/-- C2 counterexample: in a cycle where exactly one container's assignment
fails, the remaining container is still processed (its region names are
written back), but the cycle does NOT proceed to region-entry publication
or plan assembly, refuting the claim that an assignment error does not
abort the cycle. -/
theorem c2_counterexample :
    (assignContainersToRegions envSample sGhost).2.length = 1 ∧
    ((assignContainersToRegions envSample sGhost).1.metaCache.containers.map
      (fun ci => ci.regionNames)) = [[], ["share-share2"]] ∧
    (update envSample sGhost false).published = none ∧
    (update envSample sGhost false).sent = none := by
  refine ⟨by decide, by decide, by decide, by decide⟩

/-- C1 (amended): for a cycle that runs inside the startup window, with
the reserve pool present, assignment succeeding and every region's
provision-policy episode succeeding, the provision plan is not sent and
the region entries are still published, but `TryUpdateHeadroom` is NOT
invoked on any region: the headroom-update loop runs only after a plan is
sent, so it is skipped during startup. -/
theorem c1_startup_suppression (env : AdvisorEnv) (s : AdvisorState) (rpi : PoolInfo)
    (h : getPoolInfo s.metaCache poolNameReserve = some rpi)
    (he : (assignContainersToRegions env s).2 = [])
    (hf : ((assignContainersToRegions env s).1.regionMap.all
      (fun p => !p.2.provisionPolicyFails)) = true) :
    (update env s true).sent = none ∧
    (update env s true).headroomUpdatedRegions = [] ∧
    (update env s true).published.isSome = true := by
  obtain ⟨es, hok⟩ := assembleRegionEntriesList_ok _
    (perRegion_provisionResult_isSome env rpi _ hf)
  simp only [update, h, he, ne_eq, not_true_eq_false, if_false, hok]
  simp

/-- Witness for C1's amended theorem at the scenario-S2 sample state. -/
theorem c1_startup_suppression_witness :
    (update envSample sShare true).sent = none ∧
    (update envSample sShare true).headroomUpdatedRegions = [] ∧
    (update envSample sShare true).published.isSome = true :=
  c1_startup_suppression envSample sShare reservePoolSample (by decide) (by decide)
    (by decide)

/-- C1 counterexample: a startup-window cycle on the scenario-S2 input
publishes region entries and sends no plan, yet the region map is
non-empty while `TryUpdateHeadroom` was invoked on NO region — refuting
the claim that every region's headroom is still updated during the
startup window. -/
theorem c1_counterexample :
    (update envSample sShare true).published.isSome = true ∧
    (update envSample sShare true).sent = none ∧
    (update envSample sShare true).state.regionMap.length = 1 ∧
    (update envSample sShare true).headroomUpdatedRegions = [] := by
  refine ⟨by decide, by decide, by decide, by decide⟩

/-- C3 (amended): if the provision-policy episode fails for some region
(so its `GetProvision` errors), the region is retained in the region map
(the final region map has exactly the post-assignment region names), but
the failure aborts region-entry publication entirely — no region entries
are published for ANY region this cycle — and no plan is sent. -/
theorem c3_provision_error_aborts_publication (env : AdvisorEnv) (s : AdvisorState) (w : Bool)
    (rpi : PoolInfo)
    (h : getPoolInfo s.metaCache poolNameReserve = some rpi)
    (he : (assignContainersToRegions env s).2 = [])
    (hfail : ((assignContainersToRegions env s).1.regionMap.any
      (fun p => p.2.provisionPolicyFails)) = true) :
    (update env s w).published = none ∧
    (update env s w).sent = none ∧
    ((update env s w).state.regionMap.map (fun p => p.1)) =
      ((assignContainersToRegions env s).1.regionMap.map (fun p => p.1)) := by
  obtain ⟨e, hee⟩ := assembleRegionEntriesList_error _
    (perRegion_provisionResult_none env rpi _ hfail)
  simp only [update, h, he, ne_eq, not_true_eq_false, if_false, hee]
  refine ⟨trivial, trivial, ?_⟩
  simp [perRegionProvision, List.map_map, Function.comp]

/-- Witness for C3's amended theorem at the sample state whose dedicated
region fails provisioning. -/
theorem c3_provision_error_aborts_publication_witness :
    (update envSample sProvFail false).published = none ∧
    (update envSample sProvFail false).sent = none ∧
    ((update envSample sProvFail false).state.regionMap.map (fun p => p.1)) =
      ((assignContainersToRegions envSample sProvFail).1.regionMap.map (fun p => p.1)) :=
  c3_provision_error_aborts_publication envSample sProvFail false reservePoolSample
    (by decide) (by decide) (by decide)

/-- C3 counterexample: with exactly one region whose `GetProvision`
fails, both regions are retained in the map, but NO region entries are
published at all (not merely the failing region excluded) — refuting the
claim that the other regions' entries are still published. -/
theorem c3_counterexample :
    ((assignContainersToRegions envSample sProvFail).1.regionMap.filter
      (fun p => p.2.provisionPolicyFails)).length = 1 ∧
    (assignContainersToRegions envSample sProvFail).1.regionMap.length = 2 ∧
    (update envSample sProvFail false).published = none ∧
    ((update envSample sProvFail false).state.regionMap.map (fun p => p.1)) =
      ["sx", "dx"] := by
  refine ⟨by decide, by decide, by decide, by decide⟩

/-! ### The reclaim pool entry of non-binding NUMAs (C4) -/

/-- Sum of the `non_reclaimed_cpuset_size` knob over the share regions of
the region map (the `nonNumaBindingRequirement` accumulated by
`assembleProvision`). -/
def shareKnobSum (rm : List (String × QoSRegion)) : Int :=
  (rm.map (fun p =>
    if p.2.rtype = RegionType.share then
      (p.2.provisionResult.getD ⟨0, 0⟩).nonReclaimedCPUSetSize
    else 0)).sum

lemma provisionLoop_requirement (rm : List (String × QoSRegion)) :
    ∀ acc acc2, provisionLoop rm acc = .ok acc2 →
      acc2.requirement = acc.requirement + shareKnobSum rm := by
  induction rm with
  | nil =>
    intro acc acc2 h
    cases h
    simp [shareKnobSum]
  | cons hd tl ih =>
    intro acc acc2 h
    obtain ⟨n, r⟩ := hd
    have hcons : shareKnobSum ((n, r) :: tl) =
        (if r.rtype = RegionType.share then
          (r.provisionResult.getD ⟨0, 0⟩).nonReclaimedCPUSetSize else 0) +
          shareKnobSum tl := by
      simp [shareKnobSum]
    rcases hv : r.provisionResult with _ | knob
    · simp only [provisionLoop, hv] at h
      exact Except.noConfusion h
    · by_cases hs : r.rtype = RegionType.share
      · simp only [provisionLoop, hv, if_pos hs] at h
        have hreq := ih _ _ h
        dsimp only at hreq
        rw [hcons, hv, if_pos hs]
        simp only [Option.getD_some]
        omega
      · simp only [provisionLoop, hv, if_neg hs] at h
        have hreq := ih _ _ h
        dsimp only at hreq
        rw [hcons, if_neg hs]
        omega

/-- C4 (amended): the assembled `PoolEntries[reclaim][-1]` always equals
`|non_binding_numas| * cpus_per_numa - (summed share-region
non_reclaimed_cpuset_size knobs) - ceil(|reserve_pool| *
|non_binding_numas| / total_numas)`, and it is non-negative exactly when
the summed knobs plus the reserve ceiling do not exceed
`|non_binding_numas| * cpus_per_numa`; the code applies no clamp, so for
merely non-negative knob values the entry can be negative. -/
theorem c4_reclaim_nonbinding_formula (env : AdvisorEnv) (s : AdvisorState)
    (res : InternalCalculationResult)
    (h : assembleProvision env s = .ok res) :
    res.reclaimPoolNonBinding =
      ((s.nonBindingNumas.card * env.metaServer.cpusPerNuma : Nat) : Int) -
        shareKnobSum s.regionMap -
        ((ceilDiv (((getPoolSize s.metaCache poolNameReserve).getD 0) *
              s.nonBindingNumas.card) env.metaServer.numNUMANodes : Nat) : Int) ∧
    (shareKnobSum s.regionMap +
        ((ceilDiv (((getPoolSize s.metaCache poolNameReserve).getD 0) *
              s.nonBindingNumas.card) env.metaServer.numNUMANodes : Nat) : Int) ≤
          ((s.nonBindingNumas.card * env.metaServer.cpusPerNuma : Nat) : Int) →
      0 ≤ res.reclaimPoolNonBinding) := by
  simp only [assembleProvision] at h
  rcases hl : provisionLoop s.regionMap ⟨0, none, []⟩ with e | acc
  · rw [hl] at h
    cases h
  · rw [hl] at h
    cases h
    have hreq := provisionLoop_requirement s.regionMap _ _ hl
    simp only at hreq
    constructor
    · simp only
      omega
    · intro hb
      simp only
      omega

/-- Witness for C4's amended theorem at the sample state whose share
region carries knob value 3: the entry equals 11 and is non-negative. -/
theorem c4_reclaim_nonbinding_formula_witness :
    resKnobOk.reclaimPoolNonBinding = 11 ∧ 0 ≤ resKnobOk.reclaimPoolNonBinding := by
  have h := c4_reclaim_nonbinding_formula envSample sKnobOk resKnobOk (by decide)
  constructor
  · rw [h.1]
    decide
  · exact h.2 (by decide)

/-- C4 counterexample: with a single share region carrying the
non-negative knob value 100 on the 16-CPU sample node with reclaim
enabled, the assembled `PoolEntries[reclaim][-1]` is `16 - 100 - 2 = -86`,
refuting the claimed non-negativity. -/
theorem c4_counterexample :
    envSample.conf.enableReclaim = true ∧
    assembleProvision envSample sBadKnob = .ok ⟨2, some 100, [], -86⟩ := by
  refine ⟨by decide, by decide⟩

/-! ### Non-binding NUMA invariant (C5) and empty-region GC (C8) -/

/-- Union of the binding NUMA sets of the dedicated-numa-exclusive
regions of a region map. -/
def dedicatedNumaUnion (rm : List (String × QoSRegion)) : Finset Nat :=
  rm.foldr
    (fun p acc =>
      if p.2.rtype = RegionType.dedicatedNumaExclusive then p.2.bindingNumas ∪ acc else acc)
    ∅

/-- Predicate: a region-map entry is either not a share region, or its
binding NUMA set equals `nb`. -/
def shareBoundTo (nb : Finset Nat) (p : String × QoSRegion) : Bool :=
  !(p.2.rtype == RegionType.share) || (p.2.bindingNumas == nb)

lemma finset_sdiff_sdiff (a b c : Finset Nat) : (a \ b) \ c = a \ (b ∪ c) := by
  ext x
  simp only [Finset.mem_sdiff, Finset.mem_union]
  tauto

lemma dedicatedNumaUnion_cons (q : String × QoSRegion) (l : List (String × QoSRegion)) :
    dedicatedNumaUnion (q :: l) =
      if q.2.rtype = RegionType.dedicatedNumaExclusive then
        q.2.bindingNumas ∪ dedicatedNumaUnion l
      else dedicatedNumaUnion l := rfl

lemma foldl_diff_eq (rm : List (String × QoSRegion)) :
    ∀ init : Finset Nat,
      rm.foldl
        (fun acc p =>
          if p.2.rtype = RegionType.dedicatedNumaExclusive then acc \ p.2.bindingNumas else acc)
        init = init \ dedicatedNumaUnion rm := by
  induction rm with
  | nil =>
    intro init
    simp [dedicatedNumaUnion]
  | cons hd tl ih =>
    intro init
    rw [List.foldl_cons, ih, dedicatedNumaUnion_cons]
    by_cases hde : hd.2.rtype = RegionType.dedicatedNumaExclusive
    · rw [if_pos hde, if_pos hde, finset_sdiff_sdiff]
    · rw [if_neg hde, if_neg hde]

lemma recomputedNonBinding_eq (env : AdvisorEnv) (st : AdvisorState) :
    recomputedNonBinding env st = env.systemNumas \ dedicatedNumaUnion st.regionMap :=
  foldl_diff_eq st.regionMap env.systemNumas

lemma dedicatedNumaUnion_map (rm : List (String × QoSRegion))
    (f : String × QoSRegion → String × QoSRegion)
    (hf : ∀ p, ((f p).2.rtype = p.2.rtype) ∧
      ((f p).2.bindingNumas = p.2.bindingNumas ∨
        ¬p.2.rtype = RegionType.dedicatedNumaExclusive)) :
    dedicatedNumaUnion (rm.map f) = dedicatedNumaUnion rm := by
  induction rm with
  | nil => rfl
  | cons hd tl ih =>
    rw [List.map_cons, dedicatedNumaUnion_cons, dedicatedNumaUnion_cons, (hf hd).1, ih]
    by_cases hde : hd.2.rtype = RegionType.dedicatedNumaExclusive
    · rcases (hf hd).2 with hb | hb
      · rw [if_pos hde, if_pos hde, hb]
      · exact absurd hde hb
    · rw [if_neg hde, if_neg hde]

lemma uNBN_nonBinding (env : AdvisorEnv) (st : AdvisorState) :
    (updateNonBindingNumas env st).nonBindingNumas = recomputedNonBinding env st := rfl

lemma uNBN_regionMap (env : AdvisorEnv) (st : AdvisorState) :
    (updateNonBindingNumas env st).regionMap = st.regionMap.map
      (fun p =>
        if p.2.rtype = RegionType.share then
          (p.1, { p.2 with bindingNumas := recomputedNonBinding env st })
        else p) := rfl

lemma uNBN_union (env : AdvisorEnv) (st : AdvisorState) :
    dedicatedNumaUnion (updateNonBindingNumas env st).regionMap =
      dedicatedNumaUnion st.regionMap := by
  rw [uNBN_regionMap]
  apply dedicatedNumaUnion_map
  intro p
  by_cases hs : p.2.rtype = RegionType.share
  · refine ⟨by simp [if_pos hs], Or.inr ?_⟩
    rw [hs]
    simp
  · simp [if_neg hs]

lemma uNBN_shareBound (env : AdvisorEnv) (st : AdvisorState) :
    ((updateNonBindingNumas env st).regionMap.all
      (shareBoundTo (recomputedNonBinding env st))) = true := by
  rw [uNBN_regionMap, List.all_eq_true]
  intro q hq
  obtain ⟨p, hp, rfl⟩ := List.mem_map.mp hq
  by_cases hs : p.2.rtype = RegionType.share
  · simp [shareBoundTo, if_pos hs]
  · simp only [if_neg hs]
    have : (p.2.rtype == RegionType.share) = false := by
      simpa using hs
    simp [shareBoundTo, this]

lemma perRegion_union (env : AdvisorEnv) (rpi : PoolInfo) (st : AdvisorState) :
    dedicatedNumaUnion (perRegionProvision env rpi st).regionMap =
      dedicatedNumaUnion st.regionMap := by
  apply dedicatedNumaUnion_map
  intro p
  exact ⟨rfl, Or.inl rfl⟩

lemma perRegion_shareBound (env : AdvisorEnv) (rpi : PoolInfo) (st : AdvisorState)
    (nb : Finset Nat) (h : (st.regionMap.all (shareBoundTo nb)) = true) :
    ((perRegionProvision env rpi st).regionMap.all (shareBoundTo nb)) = true := by
  rw [List.all_eq_true] at h ⊢
  intro q hq
  obtain ⟨p, hp, rfl⟩ := List.mem_map.mp hq
  have := h p hp
  simpa [shareBoundTo, provisionRegion] using this

/-- C5: at the end of every successful update cycle (reserve pool
present, assignment succeeded), the advisor's non-binding NUMA set equals
the system NUMA set minus the union of the binding NUMA sets of all
dedicated-numa-exclusive regions of the final region map — recomputed
from scratch, independently of the previous cycle's value — and every
share region's binding NUMA set equals this non-binding set. -/
theorem c5_share_region_nonbinding_numas (env : AdvisorEnv) (s : AdvisorState) (w : Bool)
    (rpi : PoolInfo)
    (h : getPoolInfo s.metaCache poolNameReserve = some rpi)
    (he : (assignContainersToRegions env s).2 = []) :
    (update env s w).state.nonBindingNumas =
      env.systemNumas \ dedicatedNumaUnion (update env s w).state.regionMap ∧
    ((update env s w).state.regionMap.all
      (shareBoundTo (update env s w).state.nonBindingNumas)) = true := by
  have hrm := update_regionMap_eq env s w rpi h he
  have hnb := update_nonBinding_eq env s w rpi h he
  have har1 : (assignContainersToRegions env s).1 =
      updateNonBindingNumas env (gc (postFoldState s)) := rfl
  constructor
  · rw [hnb, hrm, har1, perRegion_union, uNBN_union, uNBN_nonBinding,
      recomputedNonBinding_eq]
  · rw [hnb, hrm, har1, uNBN_nonBinding]
    exact perRegion_shareBound env rpi _ _ (uNBN_shareBound env _)

/-- Witness for C5 at the sample state with one dedicated region on
NUMA 0 and one share region: the non-binding set is recomputed to {1} and
the share region is bound to it. -/
theorem c5_share_region_nonbinding_numas_witness :
    (update envSample sProvFail false).state.nonBindingNumas =
      envSample.systemNumas \
        dedicatedNumaUnion (update envSample sProvFail false).state.regionMap ∧
    ((update envSample sProvFail false).state.regionMap.all
      (shareBoundTo (update envSample sProvFail false).state.nonBindingNumas)) = true :=
  c5_share_region_nonbinding_numas envSample sProvFail false reservePoolSample
    (by decide) (by decide)

lemma all_nonempty_map (l : List (String × QoSRegion))
    (f : String × QoSRegion → String × QoSRegion)
    (hf : ∀ p, (f p).2.containers = p.2.containers)
    (h : (l.all (fun p => !p.2.isEmptyRegion)) = true) :
    ((l.map f).all (fun p => !p.2.isEmptyRegion)) = true := by
  rw [List.all_eq_true] at h ⊢
  intro q hq
  obtain ⟨p, hp, rfl⟩ := List.mem_map.mp hq
  have := h p hp
  simpa [QoSRegion.isEmptyRegion, hf p] using this

lemma gc_all_nonempty (s0 : AdvisorState) :
    ((gc s0).regionMap.all (fun p => !p.2.isEmptyRegion)) = true := by
  rw [List.all_eq_true]
  intro p hp
  rw [gc] at hp
  simp only [List.mem_filter] at hp
  exact hp.2

lemma assign_all_nonempty (env : AdvisorEnv) (s : AdvisorState) :
    ((assignContainersToRegions env s).1.regionMap.all
      (fun p => !p.2.isEmptyRegion)) = true := by
  have har1 : (assignContainersToRegions env s).1 =
      updateNonBindingNumas env (gc (postFoldState s)) := rfl
  rw [har1, uNBN_regionMap]
  apply all_nonempty_map
  · intro p
    by_cases hs : p.2.rtype = RegionType.share
    · simp [if_pos hs]
    · simp [if_neg hs]
  · exact gc_all_nonempty _

/-- C8: at the end of the assignment phase of every update cycle the
region map contains no region with an empty container set (every region
left empty by reassignment is garbage-collected within the same cycle),
and consequently — whenever the reserve pool is present so that the
assignment phase runs — the same holds at the end of the cycle. -/
theorem c8_no_empty_regions (env : AdvisorEnv) (s : AdvisorState) (w : Bool) (rpi : PoolInfo)
    (h : getPoolInfo s.metaCache poolNameReserve = some rpi) :
    ((assignContainersToRegions env s).1.regionMap.all
      (fun p => !p.2.isEmptyRegion)) = true ∧
    ((update env s w).state.regionMap.all (fun p => !p.2.isEmptyRegion)) = true := by
  refine ⟨assign_all_nonempty env s, ?_⟩
  by_cases he : (assignContainersToRegions env s).2 = []
  · rw [update_regionMap_eq env s w rpi h he]
    apply all_nonempty_map
    · intro p
      rfl
    · exact assign_all_nonempty env s
  · rw [update_assign_err env s w rpi h he]
    exact assign_all_nonempty env s

/-- Witness for C8 at the scenario-S2 sample state. -/
theorem c8_no_empty_regions_witness :
    ((assignContainersToRegions envSample sShare).1.regionMap.all
      (fun p => !p.2.isEmptyRegion)) = true ∧
    ((update envSample sShare false).state.regionMap.all
      (fun p => !p.2.isEmptyRegion)) = true :=
  c8_no_empty_regions envSample sShare false reservePoolSample (by decide)

end CPUAdvisor
